import Mathlib

/-!
# ESPOTAUpdater — verification of the update decision-and-apply pipeline

A shallow embedding of the ESPOTAUpdater library (ESP32 OTA update agent
pulling firmware from GitHub releases).  The repository ships only its
documentation and example sketches; the library translation units
`ESPOTAUpdater.h` / `ESPOTAUpdater.cpp` are absent, so every component below
is modelled from the design document (spec.md) and the repository README,
faithful to their words: VersionCodec, UpdateDecision, AssetSelector,
SchedulePolicy and the FirmwareApplier state machine.

Strings are embedded as `List Char`; machine counters are `Nat` reduced
modulo `2 ^ w` where the C code relies on fixed-width unsigned arithmetic.
-/

set_option autoImplicit false

namespace ESPOTA

/-! ## VersionCodec -/

/-- Numeric value of a digit character (C idiom c - 48). -/
def charToDigit (c : Char) : Nat := c.toNat - 48

/-- Accumulate a digit string into the number it denotes, left to right. -/
def digitsToNat (l : List Char) : Nat := l.foldl (fun a c => 10 * a + charToDigit c) 0

/-- All characters of the list are decimal digits. -/
def allDigits (l : List Char) : Bool := l.all Char.isDigit

/-- Modelled from the spec, section 4.1: strips a single leading non-digit
"v" prefix if present. -/
def stripV (t : List Char) : List Char :=
  match t with
  | [] => []
  | c :: rest => if c = 'v' then rest else c :: rest

/-- Split a character list at the first occurrence of the dot, returning the
two surrounding parts, or `none` when no dot occurs. -/
def splitOnFirstDot : List Char → Option (List Char × List Char)
  | [] => none
  | c :: rest =>
    if c = '.' then some ([], rest)
    else
      match splitOnFirstDot rest with
      | some (a, b) => some (c :: a, b)
      | none => none

/-- Validate the two split parts and combine them into the integer
version: both must be non-empty digit sequences. -/
def parseParts : Option (List Char × List Char) → Option Nat
  | none => none
  | some (a, b) =>
    if a ≠ [] ∧ b ≠ [] ∧ allDigits a = true ∧ allDigits b = true then
      some (digitsToNat a * 100 + digitsToNat b)
    else none

/-- Modelled from the spec, section 4.1 (`VersionCodec.parse`): strips a
single leading "v", splits on the first dot, requires both parts to be
non-empty digit sequences, and computes `major * 100 + minor`; any
malformed tag yields `none` (ParseError.MalformedTag). -/
def parseTag (t : List Char) : Option Nat :=
  parseParts (splitOnFirstDot (stripV t))

/-- `VersionCodec.parse` on host strings. -/
def parse (s : String) : Option Nat := parseTag s.toList

/-- The character rendering a single decimal digit; values above nine are
clamped (the renderer is only applied to remainders below ten). -/
def digitChar (n : Nat) : Char :=
  match n with
  | 0 => '0'
  | 1 => '1'
  | 2 => '2'
  | 3 => '3'
  | 4 => '4'
  | 5 => '5'
  | 6 => '6'
  | 7 => '7'
  | 8 => '8'
  | _ => '9'

/-- Decimal rendering worker; `fuel` bounds the recursion depth and any
call with `n < fuel` is unaffected by it. -/
def natDigitsGo (fuel n : Nat) : List Char :=
  match fuel with
  | 0 => []
  | fuel + 1 =>
    if n < 10 then [digitChar n]
    else natDigitsGo fuel (n / 10) ++ [digitChar (n % 10)]

/-- Decimal rendering of a natural number, most significant digit first. -/
def natDigits (n : Nat) : List Char := natDigitsGo (n + 1) n

/-- Zero-pad a digit string to width two (the C idiom %02d). -/
def pad2 (l : List Char) : List Char := if l.length < 2 then '0' :: l else l

/-- Modelled from the spec, section 4.2 (`VersionCodec.format`): renders
`MAJOR.MINOR` from `v / 100` and `v % 100`, minor zero-padded to two
digits. -/
def formatVersion (v : Nat) : List Char :=
  natDigits (v / 100) ++ '.' :: pad2 (natDigits (v % 100))

/-! ## ReleaseDescriptor and UpdateDecision -/

/-- Modelled from the spec, section 3: a normalized release — tag string,
parsed integer version, and the asset filename-to-URL map. -/
structure ReleaseDescriptor where
  tag : List Char
  version : Nat
  assets : List (List Char × List Char)
deriving DecidableEq

/-- Modelled from the spec, section 4.4: the outcome of the version
comparison. -/
inductive Decision where
  | UpToDate
  | Available (newVersion : Nat) (tag : List Char)
deriving DecidableEq

/-- Whether a decision reports an update. -/
def Decision.isAvailable : Decision → Bool
  | .UpToDate => false
  | .Available _ _ => true

/-- Modelled from the spec, section 4.4 (`UpdateDecision.evaluate`):
strictly `descriptor.version > running` triggers Available; equal or lower
yields UpToDate. -/
def evaluate (running : Nat) (d : ReleaseDescriptor) : Decision :=
  if d.version > running then .Available d.version d.tag else .UpToDate

/-! ## SchedulePolicy -/

/-- Unsigned subtraction in bit width `w`, the semantics of `a - b` on a
C unsigned integer of that width. -/
def usubW (w a b : Nat) : Nat := (a % 2 ^ w + (2 ^ w - b % 2 ^ w)) % 2 ^ w

/-- Modelled from the spec, section 4.6 (`SchedulePolicy.isDue`):
`now - lastCheck >= intervalMs` with the difference computed by
unsigned-subtraction semantics in the time source width `w`. -/
def isDue (w now lastCheck intervalMs : Nat) : Bool :=
  decide (intervalMs ≤ usubW w now lastCheck)

/-! ## AssetSelector -/

/-- First value bound to a key in an association list of asset names. -/
def lookupAsset : List (List Char × List Char) → List Char → Option (List Char)
  | [], _ => none
  | (n, u) :: rest, key => if n = key then some u else lookupAsset rest key

/-- Modelled from the spec, section 4.2, and the README Supported Boards
table: the closed, data-driven variant-to-filename table. -/
def assetTable : List (List Char × List Char) :=
  [("ESP32_DEVKIT".toList, "firmware-esp32-devkit.bin".toList),
   ("XIAO_ESP32S3".toList, "firmware-xiao-esp32s3.bin".toList),
   ("ESP32_S3_DEVKITC".toList, "firmware-esp32s3-devkitc.bin".toList)]

/-- Modelled from the spec, section 4.2 (`AssetSelector.selectAssetName`):
known variants map through the table, anything else to the generic
fallback filename. -/
def selectAssetName (variant : List Char) : List Char :=
  (lookupAsset assetTable variant).getD "firmware.bin".toList

/-- Modelled from the spec, section 4.2 (`AssetSelector.resolveUrl`): looks
up `selectAssetName variant` in the descriptor asset map; absence signals
NotFound (`none`) — no fallback substitution. -/
def resolveUrl (d : ReleaseDescriptor) (variant : List Char) : Option (List Char) :=
  lookupAsset d.assets (selectAssetName variant)

/-! ## FirmwareApplier -/

/-- Modelled from the spec, section 7: the error taxonomy of the staged
flash-write state machine. -/
inductive ErrorKind where
  | Network
  | InsufficientSpace
  | WriteFailure
  | Truncated
  | FinalizeFailure
  | Busy
deriving DecidableEq

/-- Modelled from the spec, section 4.5: the FirmwareApplier states. -/
inductive Phase where
  | Idle
  | Connecting
  | Streaming
  | Verifying
  | Finalizing
  | Success
  | Failed (e : ErrorKind)
deriving DecidableEq

/-- The FirmwareApplier as seen across calls: its phase and the byte count
of the in-progress session. -/
structure Applier where
  phase : Phase
  bytesWritten : Nat
deriving DecidableEq

/-- Modelled from the spec, sections 4.5 and 6: the external collaborators
of one `performUpdate` call — whether the streamed download connects with
a 2xx status, the declared content length, the free space the flash
writer reports, the chunk sizes the body yields, the total byte count the
flash writer accepts before its write primitive errors, and whether the
final commit succeeds. -/
structure Env where
  connectOk : Bool
  contentLength : Nat
  freeSpace : Nat
  chunks : List Nat
  writerCap : Nat
  finalizeOk : Bool

/-- Result of the Streaming phase: bytes written, the progress-callback
invocations (bytesWritten, declaredTotalBytes) in order, and the error
that stopped the stream, if any. -/
structure StreamResult where
  written : Nat
  progress : List (Nat × Nat)
  err : Option ErrorKind
deriving DecidableEq

/-- Modelled from the spec, section 4.5 (Streaming): each chunk is written
to the flash writer, `bytesWritten` accumulates, and the progress callback
fires after each chunk; a write-primitive error (the writer accepts only
part of a chunk) stops the stream with WriteFailure, the writer having
accepted bytes up to its capacity. -/
def streamChunks (cap total : Nat) : Nat → List Nat → StreamResult
  | w, [] => { written := w, progress := [], err := none }
  | w, c :: rest =>
    if w + c ≤ cap then
      let r := streamChunks cap total (w + c) rest
      { written := r.written, progress := (w + c, total) :: r.progress, err := r.err }
    else
      { written := cap, progress := [], err := some ErrorKind.WriteFailure }

/-- Everything observable about one `performUpdate` call: the applier state
after the call, whether the call was rejected as Busy, the ErrorKind of a
Failed transition if one happened, the completion-callback invocations
(success flag, message rendered as the ErrorKind it describes), the
progress-callback invocations, and whether the device restarted. -/
structure Outcome where
  applier : Applier
  busy : Bool
  error : Option ErrorKind
  completeCalls : List (Bool × Option ErrorKind)
  progressCalls : List (Nat × Nat)
  restarted : Bool
deriving DecidableEq

/-- Modelled from the spec, section 4.5: on any Failed transition the
completion callback fires once with success = false and a message
describing the ErrorKind, the state resets to Idle, and the device is not
restarted. -/
def failOutcome (e : ErrorKind) (w : Nat) (prog : List (Nat × Nat)) : Outcome :=
  { applier := { phase := Phase.Idle, bytesWritten := w }
    busy := false
    error := some e
    completeCalls := [(false, some e)]
    progressCalls := prog
    restarted := false }

/-- Modelled from the spec, section 4.5: a re-entrant call is rejected
signaling Busy; no callback fires and the in-progress session is left
untouched. -/
def busyOutcome (st : Applier) : Outcome :=
  { applier := st
    busy := true
    error := none
    completeCalls := []
    progressCalls := []
    restarted := false }

/-- Modelled from the spec, section 4.5: Finalizing succeeded — the
completion callback fires once with success = true and the device
restarts unconditionally. -/
def successOutcome (w : Nat) (prog : List (Nat × Nat)) : Outcome :=
  { applier := { phase := Phase.Success, bytesWritten := w }
    busy := false
    error := none
    completeCalls := [(true, none)]
    progressCalls := prog
    restarted := true }

/-- Modelled from the spec, section 4.5: the Verifying and Finalizing
stages applied to the result of Streaming — a stream error keeps its
ErrorKind, a byte-count mismatch is Truncated, a failed commit is
FinalizeFailure, and otherwise the session succeeds. -/
def afterStream (env : Env) (r : StreamResult) : Outcome :=
  match r.err with
  | some e => failOutcome e r.written r.progress
  | none =>
    if r.written ≠ env.contentLength then
      failOutcome ErrorKind.Truncated r.written r.progress
    else if env.finalizeOk = false then
      failOutcome ErrorKind.FinalizeFailure r.written r.progress
    else
      successOutcome r.written r.progress

/-- Modelled from the spec, section 4.5 (`performUpdate`): entered only
from Idle — re-entrant calls are rejected signaling Busy with the
in-progress session untouched; then Connecting (Network failure on a bad
connect), the pre-flight space check against the declared content length
(InsufficientSpace before any byte is written), Streaming in bounded
chunks, Verifying `bytesWritten = declared` (Truncated on mismatch),
Finalizing (FinalizeFailure on a failed commit), and on Success the
completion callback followed by an unconditional device restart. -/
def performUpdate (st : Applier) (env : Env) : Outcome :=
  if st.phase ≠ Phase.Idle then
    busyOutcome st
  else if env.connectOk = false then
    failOutcome ErrorKind.Network 0 []
  else if env.freeSpace < env.contentLength then
    failOutcome ErrorKind.InsufficientSpace 0 []
  else
    afterStream env (streamChunks env.writerCap env.contentLength 0 env.chunks)

/-! ## Updater configuration state -/

/-- Modelled from the spec, section 3 (SchedulerState and HardwareVariant)
and the README configuration API: the in-memory state of the updater
instance mutated by the host-facing setters. -/
structure UpdaterState where
  boardType : List Char
  intervalMs : Nat
  lastCheckTime : Nat
  autoUpdateEnabled : Bool
deriving DecidableEq

/-- Modelled from the README (`setBoardType`): stores the configured board
variant. -/
def setBoardType (st : UpdaterState) (s : List Char) : UpdaterState :=
  { st with boardType := s }

/-- Modelled from the AdvancedOTA example (`getBoardType`): exposes the
stored board variant. -/
def getBoardType (st : UpdaterState) : List Char := st.boardType

/-! ## Concrete fixtures used by the witnesses -/

/-- A release descriptor holding only the generic firmware asset. -/
def genericOnlyDescriptor : ReleaseDescriptor :=
  { tag := "v9.99".toList
    version := 999
    assets := [("firmware.bin".toList, "https://example.com/firmware.bin".toList)] }

/-- The applier at rest. -/
def idleApplier : Applier := { phase := Phase.Idle, bytesWritten := 0 }

/-- An applier mid-session. -/
def streamingApplier : Applier := { phase := Phase.Streaming, bytesWritten := 400 }

/-- A benign environment for a small download. -/
def smallEnv : Env :=
  { connectOk := true
    contentLength := 1000
    freeSpace := 2000
    chunks := [500, 500]
    writerCap := 2000
    finalizeOk := true }

/-- An environment whose flash writer reports too little free space for
the declared content length. -/
def tightEnv : Env :=
  { connectOk := true
    contentLength := 5000
    freeSpace := 1000
    chunks := [500, 500]
    writerCap := 2000
    finalizeOk := true }

/-- An environment whose download never connects. -/
def offlineEnv : Env :=
  { connectOk := false
    contentLength := 0
    freeSpace := 0
    chunks := []
    writerCap := 0
    finalizeOk := true }

/-! ## Lemmas on digit rendering and tag parsing -/

theorem digitChar_isDigit (k : Nat) : (digitChar k).isDigit = true := by
  unfold digitChar
  rcases k with _|_|_|_|_|_|_|_|_|_ <;> rfl

theorem charToDigit_digitChar (k : Nat) (h : k < 10) : charToDigit (digitChar k) = k := by
  interval_cases k <;> rfl

theorem digitsToNat_append_singleton (l : List Char) (c : Char) :
    digitsToNat (l ++ [c]) = 10 * digitsToNat l + charToDigit c := by
  simp [digitsToNat, List.foldl_append]

theorem natDigitsGo_all (fuel : Nat) : ∀ n, allDigits (natDigitsGo fuel n) = true := by
  induction fuel with
  | zero => intro n; rfl
  | succ fuel ih =>
    intro n
    unfold natDigitsGo
    split
    · simp [allDigits, digitChar_isDigit]
    · simpa [allDigits, digitChar_isDigit] using ih (n / 10)

theorem natDigitsGo_ne_nil (fuel n : Nat) (h : n < fuel) : natDigitsGo fuel n ≠ [] := by
  match fuel with
  | 0 => omega
  | fuel + 1 =>
    unfold natDigitsGo
    split
    · simp
    · simp

theorem natDigitsGo_val (fuel : Nat) : ∀ n, n < fuel → digitsToNat (natDigitsGo fuel n) = n := by
  induction fuel with
  | zero => intro n h; omega
  | succ fuel ih =>
    intro n h
    unfold natDigitsGo
    split
    · next h10 =>
      simp [digitsToNat, charToDigit_digitChar n h10]
    · next h10 =>
      have hdiv : n / 10 < n := Nat.div_lt_self (by omega) (by omega)
      rw [digitsToNat_append_singleton, ih (n / 10) (by omega),
        charToDigit_digitChar _ (Nat.mod_lt _ (by omega))]
      omega

theorem natDigits_all (n : Nat) : allDigits (natDigits n) = true := natDigitsGo_all (n + 1) n

theorem natDigits_ne_nil (n : Nat) : natDigits n ≠ [] := natDigitsGo_ne_nil (n + 1) n (by omega)

theorem natDigits_val (n : Nat) : digitsToNat (natDigits n) = n :=
  natDigitsGo_val (n + 1) n (by omega)

theorem not_mem_of_allDigits {l : List Char} (h : allDigits l = true) {c : Char}
    (hc : c.isDigit = false) : ¬ c ∈ l := by
  intro hmem
  have := List.all_eq_true.mp h c hmem
  rw [hc] at this
  exact Bool.noConfusion this

theorem splitOnFirstDot_append (a b : List Char) (h : ¬ '.' ∈ a) :
    splitOnFirstDot (a ++ '.' :: b) = some (a, b) := by
  induction a with
  | nil => simp [splitOnFirstDot]
  | cons c t ih =>
    have hc : ¬ c = '.' := fun hh => h (by simp [hh])
    rw [List.cons_append]
    unfold splitOnFirstDot
    rw [if_neg hc, ih (fun hm => h (List.mem_cons.mpr (Or.inr hm)))]

theorem pad2_ne_nil (l : List Char) : pad2 l ≠ [] := by
  unfold pad2
  split
  · simp
  · next h =>
    intro hh
    rw [hh] at h
    simp at h

theorem pad2_all {l : List Char} (h : allDigits l = true) : allDigits (pad2 l) = true := by
  unfold pad2
  split
  · simpa [allDigits] using h
  · exact h

theorem digitsToNat_pad2 (l : List Char) : digitsToNat (pad2 l) = digitsToNat l := by
  unfold pad2
  split
  · simp [digitsToNat, charToDigit]
  · rfl

theorem parseTag_digits (a b : List Char) (ha : a ≠ []) (hb : b ≠ [])
    (hda : allDigits a = true) (hdb : allDigits b = true) :
    parseTag (a ++ '.' :: b) = some (digitsToNat a * 100 + digitsToNat b) := by
  obtain ⟨c, t, rfl⟩ : ∃ c t, a = c :: t := by
    cases a with
    | nil => exact absurd rfl ha
    | cons c t => exact ⟨c, t, rfl⟩
  have hcd : c.isDigit = true := List.all_eq_true.mp hda c (by simp)
  have hcv : ¬ c = 'v' := by
    intro hh
    rw [hh] at hcd
    exact Bool.noConfusion hcd
  have hdot : ¬ '.' ∈ (c :: t) := not_mem_of_allDigits hda (by decide)
  have hstrip : stripV ((c :: t) ++ '.' :: b) = (c :: t) ++ '.' :: b := by
    rw [List.cons_append]
    simp [stripV, hcv]
  unfold parseTag
  rw [hstrip, splitOnFirstDot_append _ _ hdot]
  simp only [parseParts]
  rw [if_pos ⟨List.cons_ne_nil c t, hb, hda, hdb⟩]

theorem parseTag_formatVersion (v : Nat) : parseTag (formatVersion v) = some v := by
  rw [formatVersion,
    parseTag_digits _ _ (natDigits_ne_nil (v / 100)) (pad2_ne_nil _)
      (natDigits_all (v / 100)) (pad2_all (natDigits_all (v % 100))),
    natDigits_val, digitsToNat_pad2, natDigits_val]
  congr 1
  omega

/-! ## Lemmas on asset lookup -/

theorem lookupAsset_eq_none {l : List (List Char × List Char)} {key : List Char}
    (h : ∀ p ∈ l, ¬ p.1 = key) : lookupAsset l key = none := by
  induction l with
  | nil => rfl
  | cons p rest ih =>
    obtain ⟨n, u⟩ := p
    unfold lookupAsset
    rw [if_neg (h (n, u) (by simp)), ih (fun q hq => h q (by simp [hq]))]

/-! ## Lemmas on the FirmwareApplier state machine -/

theorem afterStream_shape (env : Env) (r : StreamResult) :
    (∃ e w p, afterStream env r = failOutcome e w p) ∨
    (∃ w p, afterStream env r = successOutcome w p) := by
  rcases hr : r.err with _ | e
  · simp only [afterStream, hr]
    split
    · exact Or.inl ⟨_, _, _, rfl⟩
    · split
      · exact Or.inl ⟨_, _, _, rfl⟩
      · exact Or.inr ⟨_, _, rfl⟩
  · simp only [afterStream, hr]
    exact Or.inl ⟨e, _, _, rfl⟩

theorem performUpdate_shape (st : Applier) (env : Env) :
    performUpdate st env = busyOutcome st ∨
    (∃ e w p, performUpdate st env = failOutcome e w p) ∨
    (∃ w p, performUpdate st env = successOutcome w p) := by
  unfold performUpdate
  split
  · exact Or.inl rfl
  · split
    · exact Or.inr (Or.inl ⟨_, _, _, rfl⟩)
    · split
      · exact Or.inr (Or.inl ⟨_, _, _, rfl⟩)
      · exact Or.inr (afterStream_shape env _)

/-! ## Lemmas on unsigned time arithmetic -/

theorem usubW_eq (w a b : Nat) (ha : a < 2 ^ w) (hb : b < 2 ^ w) :
    usubW w a b = (2 ^ w + a - b) % 2 ^ w := by
  unfold usubW
  rw [Nat.mod_eq_of_lt ha, Nat.mod_eq_of_lt hb]
  congr 1
  omega

/-! ## Claim theorems -/

/-- C1: `UpdateDecision.evaluate` returns Available exactly when the
release descriptor version is strictly greater than the running version
and UpToDate on every equal-or-lower pair; in particular
`evaluate 100 (version 100) = UpToDate`,
`evaluate 100 (version 101) = Available` and
`evaluate 150 (version 100) = UpToDate`. -/
theorem evaluate_spec :
    (∀ (running : Nat) (d : ReleaseDescriptor),
        ((evaluate running d).isAvailable = true ↔ running < d.version)
        ∧ (evaluate running d = Decision.UpToDate ↔ d.version ≤ running))
    ∧ evaluate 100 { tag := [], version := 100, assets := [] } = Decision.UpToDate
    ∧ evaluate 100 { tag := [], version := 101, assets := [] } = Decision.Available 101 []
    ∧ evaluate 150 { tag := [], version := 100, assets := [] } = Decision.UpToDate := by
  refine ⟨fun running d => ?_, by decide, by decide, by decide⟩
  unfold evaluate
  by_cases h : d.version > running
  · rw [if_pos h]
    refine ⟨⟨fun _ => by omega, fun _ => rfl⟩, ⟨fun hh => Decision.noConfusion hh, fun hh => by omega⟩⟩
  · rw [if_neg h]
    refine ⟨⟨fun hh => Bool.noConfusion hh, fun hh => absurd hh h⟩, ⟨fun _ => by omega, fun _ => rfl⟩⟩

/-- C2: `VersionCodec.parse` maps "v1.0" to 100, "v1.23" to 123 and
"v2.1" to 201, and a tag carrying the optional leading "v" parses exactly
as the tag without it. -/
theorem parse_spec :
    parse "v1.0" = some 100 ∧ parse "v1.23" = some 123 ∧ parse "v2.1" = some 201
    ∧ ∀ t : List Char, t.head? ≠ some 'v' → parseTag ('v' :: t) = parseTag t := by
  refine ⟨by decide, by decide, by decide, fun t h => ?_⟩
  have h1 : stripV ('v' :: t) = t := by simp [stripV]
  have h2 : stripV t = t := by
    cases t with
    | nil => rfl
    | cons c r =>
      simp only [List.head?_cons, ne_eq, Option.some.injEq] at h
      simp [stripV, h]
  unfold parseTag
  rw [h1, h2]

/-- C2 witness: the universal part instantiated at the tag "1.0". -/
theorem parse_spec_witness :
    ("1.0".toList.head? ≠ some 'v')
    ∧ parseTag ('v' :: "1.0".toList) = parseTag "1.0".toList :=
  ⟨by decide, parse_spec.2.2.2 "1.0".toList (by decide)⟩

/-- C3: `SchedulePolicy.isDue` holds exactly when the unsigned difference
of `now` and `lastCheck`, taken modulo `2 ^ w` in the width `w` of the
time source, reaches `intervalMs`; in particular
`isDue 10000 0 5000 = true` and `isDue 4000 0 5000 = false` at width 32. -/
theorem isDue_spec :
    (∀ w now lastCheck intervalMs : Nat, now < 2 ^ w → lastCheck < 2 ^ w →
        (isDue w now lastCheck intervalMs = true
          ↔ intervalMs ≤ (2 ^ w + now - lastCheck) % 2 ^ w))
    ∧ isDue 32 10000 0 5000 = true
    ∧ isDue 32 4000 0 5000 = false := by
  refine ⟨fun w now lastCheck intervalMs h1 h2 => ?_, by decide, by decide⟩
  unfold isDue
  rw [usubW_eq w now lastCheck h1 h2]
  simp

/-- C3 witness: the equivalence instantiated at width 32,
`now = 10000`, `lastCheck = 0`, `intervalMs = 5000`. -/
theorem isDue_spec_witness :
    ((10000 : Nat) < 2 ^ 32) ∧ ((0 : Nat) < 2 ^ 32)
    ∧ (isDue 32 10000 0 5000 = true ↔ 5000 ≤ (2 ^ 32 + 10000 - 0) % 2 ^ 32) :=
  ⟨by decide, by decide, isDue_spec.1 32 10000 0 5000 (by decide) (by decide)⟩

/-- C4: a `performUpdate` call made while the applier is not Idle is
rejected signaling Busy: no callback fires, the in-progress session is
unchanged, and the device does not restart, so at most one session is
ever active. -/
theorem performUpdate_busy_spec :
    ∀ (st : Applier) (env : Env), st.phase ≠ Phase.Idle →
      (performUpdate st env).busy = true
      ∧ (performUpdate st env).applier = st
      ∧ (performUpdate st env).completeCalls = []
      ∧ (performUpdate st env).progressCalls = []
      ∧ (performUpdate st env).restarted = false := by
  intro st env h
  have hb : performUpdate st env = busyOutcome st := by
    unfold performUpdate
    rw [if_pos h]
  rw [hb]
  exact ⟨rfl, rfl, rfl, rfl, rfl⟩

/-- C4 witness: a call while a session is Streaming. -/
theorem performUpdate_busy_spec_witness :
    streamingApplier.phase ≠ Phase.Idle
    ∧ ((performUpdate streamingApplier smallEnv).busy = true
      ∧ (performUpdate streamingApplier smallEnv).applier = streamingApplier
      ∧ (performUpdate streamingApplier smallEnv).completeCalls = []
      ∧ (performUpdate streamingApplier smallEnv).progressCalls = []
      ∧ (performUpdate streamingApplier smallEnv).restarted = false) :=
  ⟨by decide, performUpdate_busy_spec streamingApplier smallEnv (by decide)⟩

/-- C5: every session reaching a Failed transition fires the completion
callback exactly once with success = false and the ErrorKind as message,
resets the applier to Idle and does not restart the device; a restart
happens only on the Success path. -/
theorem performUpdate_failed_spec :
    (∀ (st : Applier) (env : Env) (e : ErrorKind),
        (performUpdate st env).error = some e →
          (performUpdate st env).completeCalls = [(false, some e)]
          ∧ (performUpdate st env).applier.phase = Phase.Idle
          ∧ (performUpdate st env).restarted = false)
    ∧ (∀ (st : Applier) (env : Env),
        (performUpdate st env).restarted = true →
          (performUpdate st env).error = none
          ∧ (performUpdate st env).applier.phase = Phase.Success) := by
  constructor
  · intro st env e h
    rcases performUpdate_shape st env with hb | ⟨e2, w, p, hf⟩ | ⟨w, p, hs⟩
    · rw [hb] at h
      exact Option.noConfusion h
    · rw [hf] at h ⊢
      have he : e2 = e := by simpa [failOutcome] using h
      subst he
      exact ⟨rfl, rfl, rfl⟩
    · rw [hs] at h
      exact Option.noConfusion h
  · intro st env h
    rcases performUpdate_shape st env with hb | ⟨e2, w, p, hf⟩ | ⟨w, p, hs⟩
    · rw [hb] at h
      exact Bool.noConfusion h
    · rw [hf] at h
      exact Bool.noConfusion h
    · rw [hs]
      exact ⟨rfl, rfl⟩

/-- C5 witness: a session failing at the Connecting stage. -/
theorem performUpdate_failed_spec_witness :
    (performUpdate idleApplier offlineEnv).error = some ErrorKind.Network
    ∧ ((performUpdate idleApplier offlineEnv).completeCalls = [(false, some ErrorKind.Network)]
      ∧ (performUpdate idleApplier offlineEnv).applier.phase = Phase.Idle
      ∧ (performUpdate idleApplier offlineEnv).restarted = false) :=
  ⟨by decide, performUpdate_failed_spec.1 idleApplier offlineEnv ErrorKind.Network (by decide)⟩

/-- C6: `AssetSelector.resolveUrl` signals NotFound whenever the asset
map lacks the selected filename, whatever other assets (the generic
"firmware.bin" included) the descriptor offers. -/
theorem resolveUrl_notfound_spec :
    ∀ (d : ReleaseDescriptor) (variant : List Char),
      (∀ p ∈ d.assets, ¬ p.1 = selectAssetName variant) →
      resolveUrl d variant = none :=
  fun _ _ h => lookupAsset_eq_none h

/-- C6 witness: a recognized board against a descriptor holding only the
generic asset — no fallback substitution happens. -/
theorem resolveUrl_notfound_spec_witness :
    (∀ p ∈ genericOnlyDescriptor.assets, ¬ p.1 = selectAssetName "ESP32_DEVKIT".toList)
    ∧ resolveUrl genericOnlyDescriptor "ESP32_DEVKIT".toList = none :=
  ⟨by decide, resolveUrl_notfound_spec genericOnlyDescriptor "ESP32_DEVKIT".toList (by decide)⟩

/-- C7: `AssetSelector.selectAssetName` maps the three known variants to
their board-specific filenames and every other variant string to the
generic "firmware.bin". -/
theorem selectAssetName_spec :
    selectAssetName "ESP32_DEVKIT".toList = "firmware-esp32-devkit.bin".toList
    ∧ selectAssetName "XIAO_ESP32S3".toList = "firmware-xiao-esp32s3.bin".toList
    ∧ selectAssetName "ESP32_S3_DEVKITC".toList = "firmware-esp32s3-devkitc.bin".toList
    ∧ selectAssetName "UNKNOWN_BOARD".toList = "firmware.bin".toList
    ∧ ∀ variant : List Char, (∀ p ∈ assetTable, ¬ p.1 = variant) →
        selectAssetName variant = "firmware.bin".toList := by
  refine ⟨by decide, by decide, by decide, by decide, fun variant h => ?_⟩
  unfold selectAssetName
  rw [lookupAsset_eq_none h]
  rfl

/-- C7 witness: the fallback clause instantiated at "UNKNOWN_BOARD". -/
theorem selectAssetName_spec_witness :
    (∀ p ∈ assetTable, ¬ p.1 = "UNKNOWN_BOARD".toList)
    ∧ selectAssetName "UNKNOWN_BOARD".toList = "firmware.bin".toList :=
  ⟨by decide, selectAssetName_spec.2.2.2.2 "UNKNOWN_BOARD".toList (by decide)⟩

/-- C8: formatting a version as MAJOR.MINOR from `v / 100` and `v % 100`
with the minor zero-padded to two digits and parsing it back returns the
version, for every version whose minor component is below 100. -/
theorem parse_format_roundtrip_spec :
    ∀ v : Nat, v % 100 < 100 → parseTag (formatVersion v) = some v :=
  fun v _ => parseTag_formatVersion v

/-- C8 witness: the round trip at version 123 (v1.23). -/
theorem parse_format_roundtrip_spec_witness :
    (123 % 100 < 100) ∧ parseTag (formatVersion 123) = some 123 :=
  ⟨by decide, parse_format_roundtrip_spec 123 (by decide)⟩

/-- C9: with the connect successful and the flash writer reporting less
free space than the declared content length, `performUpdate` fails with
InsufficientSpace before any byte is written: no bytes are written and
no progress callback ever fired. -/
theorem insufficient_space_spec :
    ∀ (st : Applier) (env : Env), st.phase = Phase.Idle → env.connectOk = true →
      env.freeSpace < env.contentLength →
        (performUpdate st env).error = some ErrorKind.InsufficientSpace
        ∧ (performUpdate st env).applier.bytesWritten = 0
        ∧ (performUpdate st env).progressCalls = []
        ∧ (performUpdate st env).completeCalls = [(false, some ErrorKind.InsufficientSpace)] := by
  intro st env h1 h2 h3
  have hf : performUpdate st env = failOutcome ErrorKind.InsufficientSpace 0 [] := by
    unfold performUpdate
    rw [if_neg (by simp [h1]), if_neg (by simp [h2]), if_pos h3]
  rw [hf]
  exact ⟨rfl, rfl, rfl, rfl⟩

/-- C9 witness: a 5000-byte release against 1000 bytes of free flash. -/
theorem insufficient_space_spec_witness :
    idleApplier.phase = Phase.Idle ∧ tightEnv.connectOk = true
    ∧ tightEnv.freeSpace < tightEnv.contentLength
    ∧ ((performUpdate idleApplier tightEnv).error = some ErrorKind.InsufficientSpace
      ∧ (performUpdate idleApplier tightEnv).applier.bytesWritten = 0
      ∧ (performUpdate idleApplier tightEnv).progressCalls = []
      ∧ (performUpdate idleApplier tightEnv).completeCalls
          = [(false, some ErrorKind.InsufficientSpace)]) :=
  ⟨by decide, by decide, by decide,
    insufficient_space_spec idleApplier tightEnv (by decide) (by decide) (by decide)⟩

/-- C10: the configured board variant is stored by `setBoardType` and
returned unchanged by `getBoardType`. -/
theorem boardType_roundtrip_spec :
    ∀ (st : UpdaterState) (s : List Char), getBoardType (setBoardType st s) = s :=
  fun _ _ => rfl

end ESPOTA
